import Mathlib

/-!
Verification of the search-server query pipeline (cmd/server.go).

The Go source is shallowly embedded: user records become structures over
`Int`/`String`, slices become `List`, `strconv.Atoi` becomes an
`Option Int`-valued parser, `slices.SortStableFunc` becomes the stable
`List.mergeSort` with the comparator turned into a boolean `le`-relation,
and the HTTP handler becomes a function from the outcomes of its effects
(auth check, file read, XML decode) to a status code and body.
-/

/-! ### Data model (structs of cmd/server.go) -/

structure UserServer where
  ID : Int
  Name : String
  Surname : String
  Age : Int
  About : String
  Gender : String
  deriving DecidableEq, Repr

structure UserClient where
  ID : Int
  Name : String
  Age : Int
  About : String
  Gender : String
  deriving DecidableEq, Repr

structure SearchRequestServer where
  Limit : Int
  Offset : Int
  Query : String
  OrderField : String
  OrderBy : Int
  deriving DecidableEq, Repr

def ageFieldName : String := "age"

def nameFieldName : String := "name"

def idFieldName : String := "id"

/-! ### Query-parameter parsing (parseQueryParams) -/

/-- The five raw query-string values; `url.Values.Get` yields `""` for an absent key. -/
structure RawQuery where
  limit : String
  offset : String
  order_by : String
  query : String
  order_field : String
  deriving DecidableEq, Repr

/-- Decimal digit run: at least one character, all ASCII digits. -/
def parseDigits (cs : List Char) : Option Nat :=
  match cs with
  | [] => none
  | _ =>
    cs.foldl
      (fun acc c =>
        match acc with
        | none => none
        | some n => if c.isDigit then some (n * 10 + (c.toNat - 48)) else none)
      (some 0)

def int64Min : Int := -(2 ^ 63)

def int64Max : Int := 2 ^ 63 - 1

/-- Model of strconv.Atoi: optional sign, decimal digits, 64-bit range check. -/
def atoi (s : String) : Option Int :=
  let mag : Option Int :=
    match s.data with
    | '+' :: rest => (parseDigits rest).map (fun n => (n : Int))
    | '-' :: rest => (parseDigits rest).map (fun n => -(n : Int))
    | cs => (parseDigits cs).map (fun n => (n : Int))
  match mag with
  | none => none
  | some v => if int64Min ≤ v ∧ v ≤ int64Max then some v else none

/-- The validation errors of cmd/server.go (declared via errors.New). -/
inductive ServerErr where
  | badQueryParams
  | badOrderField
  | badLimit
  | badOffset
  | badOrderBy
  deriving DecidableEq, Repr

/-- parseQueryParams: each of limit/offset/order_by must parse as an integer,
otherwise errBadQueryParams (modelled by `none`). -/
def parseQueryParams (rawParams : RawQuery) : Option SearchRequestServer :=
  match atoi rawParams.limit with
  | none => none
  | some limit =>
    match atoi rawParams.offset with
    | none => none
    | some offset =>
      match atoi rawParams.order_by with
      | none => none
      | some orderBy =>
        some
          { Limit := limit, Offset := offset, Query := rawParams.query,
            OrderField := rawParams.order_field, OrderBy := orderBy }

/-- validateQueryParams, with the source's check order. -/
def validateQueryParams (params : SearchRequestServer) : Option ServerErr :=
  if params.OrderField ≠ "" ∧ params.OrderField ≠ nameFieldName ∧
      params.OrderField ≠ ageFieldName ∧ params.OrderField ≠ idFieldName then
    some ServerErr.badOrderField
  else if params.Limit ≤ 0 then
    some ServerErr.badLimit
  else if params.Offset < 0 then
    some ServerErr.badOffset
  else if params.OrderBy = -1 ∨ params.OrderBy = 0 ∨ params.OrderBy = 1 then
    none
  else
    some ServerErr.badOrderBy

/-- The handler's parameter handling: parseQueryParams, then validateQueryParams. -/
def checkQuery (rawParams : RawQuery) : Except ServerErr SearchRequestServer :=
  match parseQueryParams rawParams with
  | none => Except.error ServerErr.badQueryParams
  | some params =>
    match validateQueryParams params with
    | some e => Except.error e
    | none => Except.ok params

/-! ### Record parsing (parseUsers) -/

def unexpectedChars : List Char := [Char.ofNat 10, Char.ofNat 32]

/-- Model of strings.TrimRight: remove all trailing characters that belong to the cutset. -/
def trimRight (s : String) (cutset : List Char) : String :=
  String.mk ((s.data.reverse.dropWhile (fun c => cutset.contains c)).reverse)

/-- The loop body of parseUsers: one decoded row becomes one client record. -/
def parseUserRow (user : UserServer) : UserClient :=
  { ID := user.ID
    Name := user.Name ++ " " ++ user.Surname
    Age := user.Age
    About := trimRight user.About unexpectedChars
    Gender := user.Gender }

/-- parseUsers: the xml.Unmarshal outcome is passed in as the decoded row list
(`none` models a decode error, which the source turns into errParsingXMLFailed). -/
def parseUsers (decoded : Option (List UserServer)) : Option (List UserClient) :=
  match decoded with
  | none => none
  | some rows => some (rows.map parseUserRow)

/-! ### Filter stage (filterUsers) -/

def containsAux (pat : List Char) : List Char → Bool
  | [] => pat.isEmpty
  | c :: cs => pat.isPrefixOf (c :: cs) || containsAux pat cs

/-- Model of strings.Contains s sub: sub occurs as a contiguous substring of s. -/
def strContains (s sub : String) : Bool :=
  containsAux sub.data s.data

/-- filterUsers: slices.DeleteFunc removes a record when the query occurs in
neither the display name nor the biography. -/
def filterUsers (users : List UserClient) (query : String) : List UserClient :=
  if query ≠ "" then
    users.filter (fun item => !(!(strContains item.Name query) && !(strContains item.About query)))
  else
    users

/-! ### Sort stage (sortUsers) -/

/-- Model of slices.SortStableFunc: a stable sort ascending in the comparator. -/
def sortStableFunc (users : List UserClient) (cmp : UserClient → UserClient → Int) :
    List UserClient :=
  users.mergeSort (fun aa bb => decide (cmp aa bb ≤ 0))

def sortByFieldAndOrder (users : List UserClient) (order : Int)
    (sortFunc : UserClient → UserClient → Int) : List UserClient :=
  if order < 0 then
    sortStableFunc users (fun aa bb => -(sortFunc aa bb))
  else
    sortStableFunc users sortFunc

def compareUsersByAge (a b : UserClient) : Int :=
  if a.Age < b.Age then -1 else if a.Age > b.Age then 1 else 0

def compareUsersByID (a b : UserClient) : Int :=
  if a.ID < b.ID then -1 else if a.ID > b.ID then 1 else 0

/-- Model of strings.Compare (UTF-8 byte order coincides with character order). -/
def strCompare (a b : String) : Int :=
  if a < b then -1 else if b < a then 1 else 0

def sortUsers (users : List UserClient) (orderField : String) (orderBy : Int) :
    List UserClient :=
  if orderBy ≠ 0 then
    if orderField = "" ∨ orderField = nameFieldName then
      sortByFieldAndOrder users orderBy (fun a b => strCompare a.Name b.Name)
    else if orderField = ageFieldName then
      sortByFieldAndOrder users orderBy compareUsersByAge
    else if orderField = idFieldName then
      sortByFieldAndOrder users orderBy compareUsersByID
    else
      users
  else
    users

/-! ### Pagination and the pipeline (paginateUsers, processUsers) -/

/-- Go 64-bit signed addition wraps: the mathematical value reduced into
[-2^63, 2^63). -/
def int64Wrap (v : Int) : Int :=
  (v + 2 ^ 63) % 2 ^ 64 - 2 ^ 63

/-- The Go slice expression users[lo:hi]: defined when 0 ≤ lo ≤ hi ≤ len(users);
on any other bounds the program panics, modelled by none. -/
def goSlice (users : List UserClient) (lo hi : Int) : Option (List UserClient) :=
  if 0 ≤ lo ∧ lo ≤ hi ∧ hi ≤ (users.length : Int) then
    some ((users.take hi.toNat).drop lo.toNat)
  else
    none

/-- paginateUsers: lastUserIdx := offset + limit is computed with Go's wrapping
64-bit addition, and users[offset:lastUserIdx] respectively users[offset:]
(that is, users[offset:len]) can panic, hence the Option result. -/
def paginateUsers (users : List UserClient) (offset limit : Int) :
    Option (List UserClient) :=
  if int64Wrap (offset + limit) ≤ (users.length : Int) then
    goSlice users offset (int64Wrap (offset + limit))
  else
    goSlice users offset (users.length : Int)

/-- processUsers; a panic inside paginateUsers propagates (none). -/
def processUsers (users : List UserClient) (params : SearchRequestServer) :
    Option (List UserClient) :=
  if params.Offset ≥ ((filterUsers users params.Query).length : Int) then
    some []
  else
    paginateUsers (sortUsers (filterUsers users params.Query) params.OrderField params.OrderBy)
      params.Offset params.Limit

/-! ### The HTTP handler (SearchServer) -/

/-- Modelled from the spec: the fixed bad-order-field message. The constant
ErrorBadOrderField that server.go passes to errors.New is declared in the
client source file, which is not part of src/. -/
def ErrorBadOrderField : String := "OrderField invalid"

def errText : ServerErr → String
  | ServerErr.badQueryParams => "bad query params"
  | ServerErr.badOrderField => ErrorBadOrderField
  | ServerErr.badLimit => "bad limit param"
  | ServerErr.badOffset => "bad offset param"
  | ServerErr.badOrderBy => "bad order_by param"

def errParsingXMLFailedMsg : String := "failed to parse file"

inductive ResponseBody where
  | empty
  | errJson (msg : String)
  | usersJson (users : List UserClient)
  deriving DecidableEq, Repr

structure HttpResult where
  status : Nat
  body : ResponseBody
  deriving DecidableEq, Repr

/-- The SearchServer handler after transport: the auth outcome, the file-read
outcome and the decode outcome are inputs; the result is status plus body.
A panic escaping the pipeline (none from processUsers) yields none: the handler
produces no response. -/
def searchServer (authOk readOk : Bool) (decoded : Option (List UserServer))
    (rawParams : RawQuery) : Option HttpResult :=
  if authOk = false then
    some { status := 401, body := ResponseBody.empty }
  else
    match checkQuery rawParams with
    | Except.error e => some { status := 400, body := ResponseBody.errJson (errText e) }
    | Except.ok params =>
      if readOk = false then
        some { status := 500, body := ResponseBody.empty }
      else
        match parseUsers decoded with
        | none => some { status := 500, body := ResponseBody.errJson errParsingXMLFailedMsg }
        | some users =>
          match processUsers users params with
          | none => none
          | some page => some { status := 200, body := ResponseBody.usersJson page }

/-! ### Specification-side auxiliary definitions -/

/-- Modelled from the spec: the more-results flag for a page, true iff records
remain past the page. The flag is computed on the client side (FindUsers),
whose source file is not part of src/. -/
def moreFlag (offset limit n : Int) : Bool :=
  decide (offset + limit < n)

/-- The sort key selected by an order field: display name for "" and "name",
age for "age", identifier for "id". -/
def sortKey (orderField : String) (u : UserClient) : String × Int :=
  if orderField = ageFieldName then ("", u.Age)
  else if orderField = idFieldName then ("", u.ID)
  else (u.Name, 0)

/-- The order fields accepted by validation. -/
def validOrderField (f : String) : Prop :=
  f = "" ∨ f = nameFieldName ∨ f = ageFieldName ∨ f = idFieldName

instance (f : String) : Decidable (validOrderField f) := by
  unfold validOrderField
  infer_instance

/-- Claim-side transformation for C6: strip exactly one trailing
newline-or-space character (what the claim asserts parseUsers does). -/
def stripOneTrailing (s : String) : String :=
  match s.data.getLast? with
  | some c =>
    if c = Char.ofNat 10 ∨ c = Char.ofNat 32 then String.mk s.data.dropLast else s
  | none => s

/-- In-bounds condition for a Go slice expression users[lo:hi]. -/
def sliceOk (n lo hi : Int) : Prop :=
  0 ≤ lo ∧ lo ≤ hi ∧ hi ≤ n

/-- In-bounds condition for the two slice expressions of paginateUsers, with the
branch test taken on the wrapped 64-bit sum exactly as the program computes it:
users[offset : lastUserIdx] in the branch taken when lastUserIdx ≤ n,
users[offset:] (that is, users[offset:n]) otherwise. -/
def paginateSliceOk (n offset limit : Int) : Prop :=
  if int64Wrap (offset + limit) ≤ n then
    sliceOk n offset (int64Wrap (offset + limit))
  else
    sliceOk n offset n

/-! ### Demonstration data for witnesses -/

def demoA : UserClient :=
  { ID := 1, Name := "Boyd Wolf", Age := 30, About := "Nulla cillum enim", Gender := "male" }

def demoB : UserClient :=
  { ID := 2, Name := "Hilda Mayer", Age := 20, About := "Sit commodo Hall", Gender := "female" }

def demoC : UserClient :=
  { ID := 3, Name := "Brooks Aguilar", Age := 20, About := "Velit ullamco", Gender := "male" }

def demoUsers : List UserClient := [demoA, demoB, demoC]

def demoRow : UserServer :=
  { ID := 1, Name := "Boyd", Surname := "Wolf", Age := 30, About := "Nulla cillum enim", Gender := "male" }

/-! ### Helper lemmas: substring search -/

theorem containsAux_iff (pat : List Char) (l : List Char) :
    containsAux pat l = true ↔ pat <:+: l := by
  induction l with
  | nil =>
    simp [containsAux, List.isEmpty_iff]
  | cons c cs ih =>
    simp only [containsAux, Bool.or_eq_true, ih, List.isPrefixOf_iff_prefix]
    exact ( List.infix_cons_iff).symm

theorem strContains_eq_decide (s sub : String) :
    strContains s sub = decide (sub.data <:+: s.data) :=
  Bool.eq_iff_iff.mpr (by simp [strContains, containsAux_iff])

/-! ### Helper lemmas: stable sorting -/

theorem filter_mergeSort_eq {α : Type} (le : α → α → Bool) (p : α → Bool)
    (htrans : ∀ a b c, le a b = true → le b c = true → le a c = true)
    (htotal : ∀ a b, le a b = true ∨ le b a = true)
    (hp : ∀ a b, p a = true → p b = true → le a b = true)
    (l : List α) :
    (l.mergeSort le).filter p = l.filter p := by
  have hpw : (l.filter p).Pairwise (fun a b => le a b = true) :=
    List.pairwise_of_forall_mem_list fun a ha b hb =>
      hp a b (List.of_mem_filter ha) (List.of_mem_filter hb)
  have htotal' : ∀ a b, le a b || le b a := by
    intro a b
    rcases htotal a b with h | h <;> simp [h]
  have h1 : List.Sublist (l.filter p) (l.mergeSort le) :=
    List.sublist_mergeSort htrans htotal' hpw (List.filter_sublist l)
  have h2 := h1.filter p
  rw [List.filter_filter] at h2
  simp only [Bool.and_self] at h2
  have h3 : ((l.mergeSort le).filter p).length = (l.filter p).length :=
    ((l.mergeSort_perm le).filter p).length_eq
  exact (h2.eq_of_length h3.symm).symm

theorem mergeSort_twice {α : Type} (le : α → α → Bool)
    (htrans : ∀ a b c, le a b = true → le b c = true → le a c = true)
    (htotal : ∀ a b, le a b = true ∨ le b a = true)
    (l : List α) :
    (l.mergeSort le).mergeSort le = l.mergeSort le := by
  have htotal' : ∀ a b, le a b || le b a := by
    intro a b
    rcases htotal a b with h | h <;> simp [h]
  exact List.mergeSort_of_sorted (List.sorted_mergeSort htrans htotal' l)

theorem compareUsersByAge_le (a b : UserClient) :
    compareUsersByAge a b ≤ 0 ↔ a.Age ≤ b.Age := by
  unfold compareUsersByAge
  split_ifs with h1 h2 <;> omega

theorem compareUsersByAge_ge (a b : UserClient) :
    0 ≤ compareUsersByAge a b ↔ b.Age ≤ a.Age := by
  unfold compareUsersByAge
  split_ifs with h1 h2 <;> omega

theorem compareUsersByID_le (a b : UserClient) :
    compareUsersByID a b ≤ 0 ↔ a.ID ≤ b.ID := by
  unfold compareUsersByID
  split_ifs with h1 h2 <;> omega

theorem compareUsersByID_ge (a b : UserClient) :
    0 ≤ compareUsersByID a b ↔ b.ID ≤ a.ID := by
  unfold compareUsersByID
  split_ifs with h1 h2 <;> omega

theorem strCompare_le (a b : String) : strCompare a b ≤ 0 ↔ a ≤ b := by
  unfold strCompare
  rcases lt_trichotomy a b with h | h | h
  · rw [ if_pos h]
    exact iff_of_true (by norm_num) h.le
  · subst h
    rw [ if_neg (lt_irrefl a), if_neg (lt_irrefl a)]
    exact iff_of_true le_rfl le_rfl
  · rw [ if_neg (lt_asymm h), if_pos h]
    exact iff_of_false (by norm_num) (not_le.mpr h)

theorem strCompare_ge (a b : String) : 0 ≤ strCompare a b ↔ b ≤ a := by
  unfold strCompare
  rcases lt_trichotomy a b with h | h | h
  · rw [ if_pos h]
    exact iff_of_false (by norm_num) (not_le.mpr h)
  · subst h
    rw [ if_neg (lt_irrefl a), if_neg (lt_irrefl a)]
    exact iff_of_true le_rfl le_rfl
  · rw [ if_neg (lt_asymm h), if_pos h]
    exact iff_of_true (by norm_num) h.le

theorem sortByFieldAndOrder_filter {K : Type} [LinearOrder K]
    (key : UserClient → K) (cmp : UserClient → UserClient → Int) (dir : Int)
    (p : UserClient → Bool)
    (hle : ∀ a b, cmp a b ≤ 0 ↔ key a ≤ key b)
    (hge : ∀ a b, 0 ≤ cmp a b ↔ key b ≤ key a)
    (hp : ∀ a b, p a = true → p b = true → key a = key b)
    (l : List UserClient) :
    (sortByFieldAndOrder l dir cmp).filter p = l.filter p := by
  unfold sortByFieldAndOrder sortStableFunc
  split_ifs with hd
  · refine filter_mergeSort_eq _ p ?_ ?_ ?_ l
    · intro a b c hab hbc
      simp only [decide_eq_true_eq] at *
      have h1 : key b ≤ key a := (hge a b).mp (by omega)
      have h2 : key c ≤ key b := (hge b c).mp (by omega)
      have h3 : key c ≤ key a := le_trans h2 h1
      have := (hge a c).mpr h3
      omega
    · intro a b
      simp only [decide_eq_true_eq]
      rcases le_total (key b) (key a) with h | h
      · exact Or.inl (by have := (hge a b).mpr h; omega)
      · exact Or.inr (by have := (hge b a).mpr h; omega)
    · intro a b hpa hpb
      have hk := hp a b hpa hpb
      simp only [decide_eq_true_eq]
      have := (hge a b).mpr (le_of_eq hk.symm)
      omega
  · refine filter_mergeSort_eq _ p ?_ ?_ ?_ l
    · intro a b c hab hbc
      simp only [decide_eq_true_eq] at *
      exact (hle a c).mpr (le_trans ((hle a b).mp hab) ((hle b c).mp hbc))
    · intro a b
      simp only [decide_eq_true_eq]
      rcases le_total (key a) (key b) with h | h
      · exact Or.inl ((hle a b).mpr h)
      · exact Or.inr ((hle b a).mpr h)
    · intro a b hpa hpb
      have hk := hp a b hpa hpb
      simp only [decide_eq_true_eq]
      exact (hle a b).mpr (le_of_eq hk)

theorem sortByFieldAndOrder_twice {K : Type} [LinearOrder K]
    (key : UserClient → K) (cmp : UserClient → UserClient → Int) (dir : Int)
    (hle : ∀ a b, cmp a b ≤ 0 ↔ key a ≤ key b)
    (hge : ∀ a b, 0 ≤ cmp a b ↔ key b ≤ key a)
    (l : List UserClient) :
    sortByFieldAndOrder (sortByFieldAndOrder l dir cmp) dir cmp =
      sortByFieldAndOrder l dir cmp := by
  unfold sortByFieldAndOrder sortStableFunc
  split_ifs with hd
  · refine mergeSort_twice _ ?_ ?_ l
    · intro a b c hab hbc
      simp only [decide_eq_true_eq] at *
      have h1 : key b ≤ key a := (hge a b).mp (by omega)
      have h2 : key c ≤ key b := (hge b c).mp (by omega)
      have := (hge a c).mpr (le_trans h2 h1)
      omega
    · intro a b
      simp only [decide_eq_true_eq]
      rcases le_total (key b) (key a) with h | h
      · exact Or.inl (by have := (hge a b).mpr h; omega)
      · exact Or.inr (by have := (hge b a).mpr h; omega)
  · refine mergeSort_twice _ ?_ ?_ l
    · intro a b c hab hbc
      simp only [decide_eq_true_eq] at *
      exact (hle a c).mpr (le_trans ((hle a b).mp hab) ((hle b c).mp hbc))
    · intro a b
      simp only [decide_eq_true_eq]
      rcases le_total (key a) (key b) with h | h
      · exact Or.inl ((hle a b).mpr h)
      · exact Or.inr ((hle b a).mpr h)

theorem sortUsers_by_name {orderBy : Int} {f : String} (hnz : orderBy ≠ 0)
    (hf : f = "" ∨ f = nameFieldName) (l : List UserClient) :
    sortUsers l f orderBy =
      sortByFieldAndOrder l orderBy (fun a b => strCompare a.Name b.Name) := by
  unfold sortUsers
  rw [ if_pos hnz, if_pos hf]

theorem sortUsers_by_age {orderBy : Int} (hnz : orderBy ≠ 0) (l : List UserClient) :
    sortUsers l ageFieldName orderBy = sortByFieldAndOrder l orderBy compareUsersByAge := by
  unfold sortUsers
  rw [ if_pos hnz, if_neg (by decide), if_pos rfl]

theorem sortUsers_by_id {orderBy : Int} (hnz : orderBy ≠ 0) (l : List UserClient) :
    sortUsers l idFieldName orderBy = sortByFieldAndOrder l orderBy compareUsersByID := by
  unfold sortUsers
  rw [ if_pos hnz, if_neg (by decide), if_neg (by decide), if_pos rfl]

theorem sortKey_of_name {f : String} (hf : f = "" ∨ f = nameFieldName) (u : UserClient) :
    sortKey f u = (u.Name, 0) := by
  rcases hf with hf | hf <;> subst hf <;> simp [sortKey, ageFieldName, idFieldName, nameFieldName]

theorem sortKey_of_age (u : UserClient) : sortKey ageFieldName u = ("", u.Age) := by
  simp [sortKey]

theorem sortKey_of_id (u : UserClient) : sortKey idFieldName u = ("", u.ID) := by
  simp [sortKey, ageFieldName, idFieldName]

theorem sortUsers_length (l : List UserClient) (orderField : String) (orderBy : Int) :
    (sortUsers l orderField orderBy).length = l.length := by
  unfold sortUsers sortByFieldAndOrder sortStableFunc
  split_ifs <;> simp

/-! ### Claims about the sort stage -/

/-- C1: for every record sequence, every order field in {"", "name", "age", "id"} and
every direction in {-1, 1}, sorting is stable — the subsequence of records carrying any
fixed sort key is exactly the same, in the same relative order, before and after the
sort — and sorting an already-sorted sequence again with the same field and direction
yields identical output. -/
theorem c1_sort_stable (l : List UserClient) (orderField : String) (orderBy : Int)
    (hf : orderField = "" ∨ orderField = nameFieldName ∨ orderField = ageFieldName ∨
      orderField = idFieldName)
    (hd : orderBy = -1 ∨ orderBy = 1) :
    (∀ k : String × Int,
        (sortUsers l orderField orderBy).filter (fun u => decide (sortKey orderField u = k)) =
          l.filter (fun u => decide (sortKey orderField u = k))) ∧
      sortUsers (sortUsers l orderField orderBy) orderField orderBy =
        sortUsers l orderField orderBy := by
  have hnz : orderBy ≠ 0 := by rcases hd with h | h <;> omega
  rcases hf with hf | hf | hf | hf
  · have hn : orderField = "" ∨ orderField = nameFieldName := Or.inl hf
    constructor
    · intro k
      rw [sortUsers_by_name hnz hn]
      refine sortByFieldAndOrder_filter (fun u => u.Name) _ orderBy _
        (fun a b => strCompare_le _ _) (fun a b => strCompare_ge _ _) ?_ l
      intro a b hpa hpb
      have ha := of_decide_eq_true hpa
      have hb := of_decide_eq_true hpb
      rw [sortKey_of_name hn] at ha hb
      exact congrArg Prod.fst (ha.trans hb.symm)
    · rw [sortUsers_by_name hnz hn, sortUsers_by_name hnz hn]
      exact sortByFieldAndOrder_twice (fun u => u.Name) _ orderBy
        (fun a b => strCompare_le _ _) (fun a b => strCompare_ge _ _) l
  · have hn : orderField = "" ∨ orderField = nameFieldName := Or.inr hf
    constructor
    · intro k
      rw [sortUsers_by_name hnz hn]
      refine sortByFieldAndOrder_filter (fun u => u.Name) _ orderBy _
        (fun a b => strCompare_le _ _) (fun a b => strCompare_ge _ _) ?_ l
      intro a b hpa hpb
      have ha := of_decide_eq_true hpa
      have hb := of_decide_eq_true hpb
      rw [sortKey_of_name hn] at ha hb
      exact congrArg Prod.fst (ha.trans hb.symm)
    · rw [sortUsers_by_name hnz hn, sortUsers_by_name hnz hn]
      exact sortByFieldAndOrder_twice (fun u => u.Name) _ orderBy
        (fun a b => strCompare_le _ _) (fun a b => strCompare_ge _ _) l
  · subst hf
    constructor
    · intro k
      rw [sortUsers_by_age hnz]
      refine sortByFieldAndOrder_filter (fun u => u.Age) _ orderBy _
        compareUsersByAge_le compareUsersByAge_ge ?_ l
      intro a b hpa hpb
      have ha := of_decide_eq_true hpa
      have hb := of_decide_eq_true hpb
      rw [sortKey_of_age] at ha hb
      exact congrArg Prod.snd (ha.trans hb.symm)
    · rw [sortUsers_by_age hnz, sortUsers_by_age hnz]
      exact sortByFieldAndOrder_twice (fun u => u.Age) _ orderBy
        compareUsersByAge_le compareUsersByAge_ge l
  · subst hf
    constructor
    · intro k
      rw [sortUsers_by_id hnz]
      refine sortByFieldAndOrder_filter (fun u => u.ID) _ orderBy _
        compareUsersByID_le compareUsersByID_ge ?_ l
      intro a b hpa hpb
      have ha := of_decide_eq_true hpa
      have hb := of_decide_eq_true hpb
      rw [sortKey_of_id] at ha hb
      exact congrArg Prod.snd (ha.trans hb.symm)
    · rw [sortUsers_by_id hnz, sortUsers_by_id hnz]
      exact sortByFieldAndOrder_twice (fun u => u.ID) _ orderBy
        compareUsersByID_le compareUsersByID_ge l

/-- Witness for C1 at a concrete sequence holding a duplicate age key. -/
theorem c1_sort_stable_witness :
    (ageFieldName = "" ∨ ageFieldName = nameFieldName ∨ ageFieldName = ageFieldName ∨
        ageFieldName = idFieldName) ∧
      ((1 : Int) = -1 ∨ (1 : Int) = 1) ∧
      (sortUsers demoUsers ageFieldName 1).filter
          (fun u => decide (sortKey ageFieldName u = ("", 20))) =
        demoUsers.filter (fun u => decide (sortKey ageFieldName u = ("", 20))) ∧
      sortUsers (sortUsers demoUsers ageFieldName 1) ageFieldName 1 =
        sortUsers demoUsers ageFieldName 1 :=
  ⟨Or.inr (Or.inr (Or.inl rfl)), Or.inr rfl,
    (c1_sort_stable demoUsers ageFieldName 1 (Or.inr (Or.inr (Or.inl rfl)))
        (Or.inr rfl)).1 ("", 20),
    (c1_sort_stable demoUsers ageFieldName 1 (Or.inr (Or.inr (Or.inl rfl)))
        (Or.inr rfl)).2⟩

/-- C10: the sort stage applied with an order field outside {"", "name", "age", "id"}
returns the sequence unchanged — the unknown field is silently ignored, there being no
error channel — and direction 0 returns the sequence unchanged for every field. -/
theorem c10_sort_ignores_unknown (l : List UserClient) (orderField : String) (orderBy : Int) :
    (¬(orderField = "" ∨ orderField = nameFieldName ∨ orderField = ageFieldName ∨
          orderField = idFieldName) →
        sortUsers l orderField orderBy = l) ∧
      sortUsers l orderField 0 = l := by
  constructor
  · intro h
    unfold sortUsers
    split_ifs with hz hc ha hi <;> first | rfl | tauto
  · simp [sortUsers]

/-- Witness for C10 at the unknown order field "gender". -/
theorem c10_sort_ignores_unknown_witness :
    ¬(("gender" : String) = "" ∨ ("gender" : String) = nameFieldName ∨
        ("gender" : String) = ageFieldName ∨ ("gender" : String) = idFieldName) ∧
      sortUsers demoUsers "gender" 1 = demoUsers ∧
      sortUsers demoUsers "gender" 0 = demoUsers :=
  ⟨by decide, (c10_sort_ignores_unknown demoUsers "gender" 1).1 (by decide),
    (c10_sort_ignores_unknown demoUsers "gender" 0).2⟩

/-! ### Claim about the filter stage -/

/-- C3: filterUsers keeps a record iff the query is a literal, case-sensitive substring
of the display name or of the biography; the kept records appear in their original
relative order (the result is a sublist of the input); the empty query returns the
sequence unchanged. -/
theorem c3_filter_correct (users : List UserClient) (query : String) :
    filterUsers users query =
        users.filter
          (fun u => decide (query.data <:+: u.Name.data ∨ query.data <:+: u.About.data)) ∧
      List.Sublist (filterUsers users query) users ∧
      (query = "" → filterUsers users query = users) := by
  have hmain : filterUsers users query =
      users.filter
        (fun u => decide (query.data <:+: u.Name.data ∨ query.data <:+: u.About.data)) := by
    unfold filterUsers
    by_cases hq : query = ""
    · subst hq
      simp [List.nil_infix]
    · rw [ if_pos hq]
      refine List.filter_congr ?_
      intro u _
      simp only [strContains_eq_decide, Bool.not_and, Bool.not_not]
      simp
  refine ⟨hmain, ?_, ?_⟩
  · rw [hmain]
    exact List.filter_sublist users
  · intro hq
    simp [filterUsers, hq]

/-- Witness for C3: a query matching one biography, plus the empty query. -/
theorem c3_filter_correct_witness :
    filterUsers demoUsers "Hall" =
        demoUsers.filter
          (fun u => decide (("Hall" : String).data <:+: u.Name.data ∨
            ("Hall" : String).data <:+: u.About.data)) ∧
      List.Sublist (filterUsers demoUsers "Hall") demoUsers ∧
      filterUsers demoUsers "" = demoUsers :=
  ⟨(c3_filter_correct demoUsers "Hall").1, (c3_filter_correct demoUsers "Hall").2.1,
    (c3_filter_correct demoUsers "").2.2 rfl⟩

/-! ### Claims about pagination and the pipeline -/

theorem int64Wrap_eq_self {v : Int} (h1 : int64Min ≤ v) (h2 : v ≤ int64Max) :
    int64Wrap v = v := by
  have hp63 : (2 : Int) ^ 63 = 9223372036854775808 := by norm_num
  have hp64 : (2 : Int) ^ 64 = 18446744073709551616 := by norm_num
  unfold int64Min at h1
  unfold int64Max at h2
  rw [hp63] at h1
  rw [hp63] at h2
  unfold int64Wrap
  rw [hp63, hp64, Int.emod_eq_of_lt (by omega) (by omega)]
  omega

theorem int64Wrap_sum_eq {offset limit : Int} (h0 : 0 ≤ offset) (h1 : 0 < limit)
    (hnw : offset + limit ≤ int64Max) :
    int64Wrap (offset + limit) = offset + limit := by
  have hmin : int64Min ≤ (0 : Int) := by decide
  exact int64Wrap_eq_self (by omega) hnw

/-- On the overflow-free domain paginateUsers never panics and returns the two
slices of the source. -/
theorem paginateUsers_eq (users : List UserClient) (offset limit : Int)
    (h0 : 0 ≤ offset) (h1 : 0 < limit) (h2 : offset < (users.length : Int))
    (hnw : offset + limit ≤ int64Max) :
    paginateUsers users offset limit =
      if offset + limit ≤ (users.length : Int) then
        some ((users.drop offset.toNat).take limit.toNat)
      else
        some (users.drop offset.toNat) := by
  have hw : int64Wrap (offset + limit) = offset + limit := int64Wrap_sum_eq h0 h1 hnw
  unfold paginateUsers
  rw [hw]
  by_cases hle : offset + limit ≤ (users.length : Int)
  · rw [ if_pos hle, if_pos hle]
    unfold goSlice
    rw [ if_pos ⟨h0, by omega, hle⟩]
    congr 1
    rw [List.take_drop]
    have hsum : (offset + limit).toNat = offset.toNat + limit.toNat := by omega
    rw [hsum]
  · rw [ if_neg hle, if_neg hle]
    unfold goSlice
    rw [ if_pos ⟨h0, le_of_lt h2, le_refl _⟩]
    simp

/-- C2 (amended): for every sequence of length n and every validated offset ≥ 0 and
limit > 0 with offset < n, provided the 64-bit sum offset + limit does not overflow
(offset + limit ≤ 2^63 − 1): if offset + limit ≤ n the returned page is
sequence[offset : offset+limit], of length exactly limit, and the more-flag equals
(offset + limit < n); if offset + limit > n the returned page is sequence[offset : n],
of length n − offset, and the more-flag is false. Without the overflow bound the
program panics instead (see the counterexample). -/
theorem c2_pagination_arithmetic (users : List UserClient) (offset limit : Int)
    (h0 : 0 ≤ offset) (h1 : 0 < limit) (h2 : offset < (users.length : Int))
    (hnw : offset + limit ≤ int64Max) :
    (offset + limit ≤ (users.length : Int) →
        paginateUsers users offset limit =
            some ((users.drop offset.toNat).take limit.toNat) ∧
          ((users.drop offset.toNat).take limit.toNat).length = limit.toNat ∧
          moreFlag offset limit (users.length : Int) =
            decide (offset + limit < (users.length : Int))) ∧
      ((users.length : Int) < offset + limit →
        paginateUsers users offset limit = some (users.drop offset.toNat) ∧
          (users.drop offset.toNat).length = users.length - offset.toNat ∧
          moreFlag offset limit (users.length : Int) = false) := by
  have hpag := paginateUsers_eq users offset limit h0 h1 h2 hnw
  constructor
  · intro hle
    rw [ if_pos hle] at hpag
    refine ⟨hpag, ?_, rfl⟩
    rw [List.length_take, List.length_drop]
    omega
  · intro hgt
    rw [ if_neg (by omega)] at hpag
    refine ⟨hpag, ?_, ?_⟩
    · rw [List.length_drop]
    · unfold moreFlag
      simp only [decide_eq_false_iff_not]
      omega

/-- C2 counterexample: offset 1 and limit 2^63 − 1 pass validation and satisfy
offset + limit > n, yet the 64-bit sum wraps to −2^63, the program takes the first
slice branch and panics on users[1:−2^63] (none) instead of returning
sequence[offset : n]. -/
theorem c2_pagination_arithmetic_counterexample :
    (0 : Int) ≤ 1 ∧ (0 : Int) < int64Max ∧ (1 : Int) < (demoUsers.length : Int) ∧
      (demoUsers.length : Int) < 1 + int64Max ∧
      int64Wrap (1 + int64Max) ≤ (demoUsers.length : Int) ∧
      paginateUsers demoUsers 1 int64Max = none ∧
      paginateUsers demoUsers 1 int64Max ≠ some (demoUsers.drop (1 : Int).toNat) := by
  refine ⟨?_, ?_, ?_, ?_, ?_, ?_, ?_⟩ <;> decide

/-- Witness for C2 (amended), exercising both the full-page branch and the
truncated-page branch. -/
theorem c2_pagination_arithmetic_witness :
    ((0 : Int) ≤ 1 ∧ (0 : Int) < 2 ∧ (1 : Int) < (demoUsers.length : Int) ∧
        (1 : Int) + 2 ≤ int64Max ∧ (1 : Int) + 3 ≤ int64Max) ∧
      (paginateUsers demoUsers 1 2 =
          some ((demoUsers.drop (1 : Int).toNat).take (2 : Int).toNat) ∧
        ((demoUsers.drop (1 : Int).toNat).take (2 : Int).toNat).length = (2 : Int).toNat ∧
        moreFlag 1 2 (demoUsers.length : Int) =
          decide ((1 : Int) + 2 < (demoUsers.length : Int))) ∧
      (paginateUsers demoUsers 1 3 = some (demoUsers.drop (1 : Int).toNat) ∧
        (demoUsers.drop (1 : Int).toNat).length = demoUsers.length - (1 : Int).toNat ∧
        moreFlag 1 3 (demoUsers.length : Int) = false) :=
  ⟨⟨by decide, by decide, by decide, by decide, by decide⟩,
    (c2_pagination_arithmetic demoUsers 1 2 (by decide) (by decide) (by decide)
        (by decide)).1 (by decide),
    (c2_pagination_arithmetic demoUsers 1 3 (by decide) (by decide) (by decide)
        (by decide)).2 (by decide)⟩

/-- C7 (amended): for every dataset and validated request whose 64-bit sum
offset + limit does not overflow (offset + limit ≤ 2^63 − 1), the pipeline returns a
page; that page has at most limit records, and it is empty exactly when the offset is
out of range with respect to the post-filter (pre-pagination) length — the bounds
check is against the filtered count, not the raw dataset count. Without the overflow
bound the program can panic and return no page (see the counterexample). -/
theorem c7_page_bounds (users : List UserClient) (params : SearchRequestServer)
    (h0 : 0 ≤ params.Offset) (h1 : 0 < params.Limit)
    (hnw : params.Offset + params.Limit ≤ int64Max) :
    (processUsers users params).isSome = true ∧
      ∀ page, processUsers users params = some page →
        page.length ≤ params.Limit.toNat ∧
        (page = [] ↔ params.Offset ≥ ((filterUsers users params.Query).length : Int)) := by
  unfold processUsers
  by_cases hg : params.Offset ≥ ((filterUsers users params.Query).length : Int)
  · rw [ if_pos hg]
    refine ⟨rfl, ?_⟩
    intro page hp
    obtain rfl := Option.some.inj hp
    exact ⟨by simp, iff_of_true rfl hg⟩
  · rw [ if_neg hg]
    have hlen : (sortUsers (filterUsers users params.Query) params.OrderField
        params.OrderBy).length = (filterUsers users params.Query).length :=
      sortUsers_length _ _ _
    have hpag := paginateUsers_eq
      (sortUsers (filterUsers users params.Query) params.OrderField params.OrderBy)
      params.Offset params.Limit h0 h1 (by rw [hlen]; omega) hnw
    by_cases h2 : params.Offset + params.Limit ≤
        ((sortUsers (filterUsers users params.Query) params.OrderField
            params.OrderBy).length : Int)
    · rw [ if_pos h2] at hpag
      rw [hpag]
      rw [hlen] at h2
      refine ⟨rfl, ?_⟩
      intro page hp
      obtain rfl := Option.some.inj hp
      constructor
      · rw [List.length_take]
        omega
      · constructor
        · intro he
          have hL := congrArg List.length he
          rw [List.length_take, List.length_drop, hlen] at hL
          simp at hL
          omega
        · intro hcon
          exact absurd hcon hg
    · rw [ if_neg h2] at hpag
      rw [hpag]
      rw [hlen] at h2
      refine ⟨rfl, ?_⟩
      intro page hp
      obtain rfl := Option.some.inj hp
      constructor
      · rw [List.length_drop, hlen]
        omega
      · constructor
        · intro he
          have hL := congrArg List.length he
          rw [List.length_drop, hlen] at hL
          simp at hL
          omega
        · intro hcon
          exact absurd hcon hg

/-- C7 counterexample: limit 2^63 − 1 with offset 1 passes validation, the filtered
length is 3 > offset, yet the pipeline panics (none): no page is returned at all, so
no bound on the page can hold. -/
theorem c7_page_bounds_counterexample :
    validateQueryParams
        { Limit := int64Max, Offset := 1, Query := "", OrderField := "", OrderBy := 0 } =
      none ∧
      processUsers demoUsers
          { Limit := int64Max, Offset := 1, Query := "", OrderField := "", OrderBy := 0 } =
        none := by
  refine ⟨?_, ?_⟩ <;> decide

def demoParams : SearchRequestServer :=
  { Limit := 2, Offset := 0, Query := "", OrderField := "", OrderBy := 0 }

/-- Witness for C7 (amended) at a concrete dataset and validated request. -/
theorem c7_page_bounds_witness :
    ((0 : Int) ≤ demoParams.Offset ∧ (0 : Int) < demoParams.Limit ∧
        demoParams.Offset + demoParams.Limit ≤ int64Max) ∧
      (processUsers demoUsers demoParams).isSome = true ∧
      processUsers demoUsers demoParams = some [demoA, demoB] ∧
      (([demoA, demoB] : List UserClient).length ≤ demoParams.Limit.toNat ∧
        (([demoA, demoB] : List UserClient) = [] ↔
          demoParams.Offset ≥ ((filterUsers demoUsers demoParams.Query).length : Int))) :=
  ⟨⟨by decide, by decide, by decide⟩,
    (c7_page_bounds demoUsers demoParams (by decide) (by decide) (by decide)).1,
    by decide,
    (c7_page_bounds demoUsers demoParams (by decide) (by decide) (by decide)).2
      [demoA, demoB] (by decide)⟩

/-- C9 (amended): under a validated request whose 64-bit sum offset + limit does not
overflow (offset + limit ≤ 2^63 − 1), the pipeline leaves pagination unreached
(returning the empty page) whenever offset ≥ the filtered length, and otherwise the
sorted sequence has the filtered length, every slice taken by paginateUsers is in
bounds for it, and the pipeline returns a page — it does not panic. Without the
overflow bound the 64-bit sum wraps, the in-bounds condition fails and the program
panics (see the counterexample). -/
theorem c9_slices_in_bounds (users : List UserClient) (params : SearchRequestServer)
    (h0 : 0 ≤ params.Offset) (h1 : 0 < params.Limit)
    (hnw : params.Offset + params.Limit ≤ int64Max) :
    (params.Offset ≥ ((filterUsers users params.Query).length : Int) →
        processUsers users params = some []) ∧
      (params.Offset < ((filterUsers users params.Query).length : Int) →
        (sortUsers (filterUsers users params.Query) params.OrderField params.OrderBy).length =
            (filterUsers users params.Query).length ∧
          paginateSliceOk
            ((sortUsers (filterUsers users params.Query) params.OrderField
                params.OrderBy).length : Int)
            params.Offset params.Limit ∧
          (processUsers users params).isSome = true) := by
  constructor
  · intro h
    unfold processUsers
    rw [ if_pos h]
  · intro h
    have hlen := sortUsers_length (filterUsers users params.Query) params.OrderField
      params.OrderBy
    have hw : int64Wrap (params.Offset + params.Limit) = params.Offset + params.Limit :=
      int64Wrap_sum_eq h0 h1 hnw
    refine ⟨hlen, ?_, ?_⟩
    · unfold paginateSliceOk sliceOk
      rw [hw, hlen]
      split_ifs with h2 <;> omega
    · unfold processUsers
      rw [ if_neg (by omega)]
      have hpag := paginateUsers_eq
        (sortUsers (filterUsers users params.Query) params.OrderField params.OrderBy)
        params.Offset params.Limit h0 h1 (by rw [hlen]; omega) hnw
      split_ifs at hpag <;> rw [hpag] <;> rfl

/-- C9 counterexample: at validated limit 2^63 − 1, offset 1 and filtered length 3,
the wrapped lastUserIdx is −2^63: the program takes the first slice branch with an
upper bound below the lower bound, so users[1:−2^63] is out of range and the pipeline
panics (none) instead of being total. -/
theorem c9_slices_in_bounds_counterexample :
    validateQueryParams
        { Limit := int64Max, Offset := 1, Query := "", OrderField := "", OrderBy := 0 } =
      none ∧
      (1 : Int) < ((filterUsers demoUsers "").length : Int) ∧
      int64Wrap (1 + int64Max) ≤ ((filterUsers demoUsers "").length : Int) ∧
      int64Wrap (1 + int64Max) < 1 ∧
      processUsers demoUsers
          { Limit := int64Max, Offset := 1, Query := "", OrderField := "", OrderBy := 0 } =
        none := by
  refine ⟨?_, ?_, ?_, ?_, ?_⟩ <;> decide

/-- Witness for C9 (amended) at a concrete dataset and validated request with offset
in range. -/
theorem c9_slices_in_bounds_witness :
    ((0 : Int) ≤ demoParams.Offset ∧ (0 : Int) < demoParams.Limit ∧
        demoParams.Offset + demoParams.Limit ≤ int64Max ∧
        demoParams.Offset < ((filterUsers demoUsers demoParams.Query).length : Int)) ∧
      (sortUsers (filterUsers demoUsers demoParams.Query) demoParams.OrderField
            demoParams.OrderBy).length =
          (filterUsers demoUsers demoParams.Query).length ∧
      paginateSliceOk
        ((sortUsers (filterUsers demoUsers demoParams.Query) demoParams.OrderField
            demoParams.OrderBy).length : Int)
        demoParams.Offset demoParams.Limit ∧
      (processUsers demoUsers demoParams).isSome = true :=
  ⟨⟨by decide, by decide, by decide, by decide⟩,
    (c9_slices_in_bounds demoUsers demoParams (by decide) (by decide) (by decide)).2
      (by decide)⟩

/-! ### Helper lemma: TrimRight -/

theorem trimRight_spec (s : String) (cutset : List Char) :
    (trimRight s cutset).data <+: s.data ∧
      (∀ c ∈ s.data.drop (trimRight s cutset).data.length, c ∈ cutset) ∧
      (∀ c, (trimRight s cutset).data.getLast? = some c → c ∉ cutset) := by
  unfold trimRight
  refine ⟨?_, ?_, ?_⟩
  · have h1 : (s.data.reverse.dropWhile (fun c => cutset.contains c)).reverse <+:
        s.data.reverse.reverse :=
      List.reverse_prefix.mpr (List.dropWhile_suffix (fun c => cutset.contains c))
    rwa [List.reverse_reverse] at h1
  · have htd := List.takeWhile_append_dropWhile (fun c => cutset.contains c)
      (l := s.data.reverse)
    have hsplit : s.data =
        (s.data.reverse.dropWhile (fun c => cutset.contains c)).reverse ++
          (s.data.reverse.takeWhile (fun c => cutset.contains c)).reverse := by
      have h := congrArg List.reverse htd
      rw [List.reverse_append, List.reverse_reverse] at h
      exact h.symm
    have hdrop : s.data.drop
        ((s.data.reverse.dropWhile (fun c => cutset.contains c)).reverse).length =
        (s.data.reverse.takeWhile (fun c => cutset.contains c)).reverse := by
      nth_rewrite 2 [hsplit]
      exact List.drop_left _ _
    intro c hc
    rw [show (String.mk ((s.data.reverse.dropWhile (fun c => cutset.contains c)).reverse)).data =
        (s.data.reverse.dropWhile (fun c => cutset.contains c)).reverse from rfl, hdrop] at hc
    rw [List.mem_reverse] at hc
    have hp := List.mem_takeWhile_imp hc
    exact List.elem_iff.mp hp
  · intro c hc
    have hhead : (s.data.reverse.dropWhile (fun c => cutset.contains c)).head? = some c := by
      rw [← List.getLast?_reverse]
      exact hc
    have h := List.head?_dropWhile_not (fun c => cutset.contains c) s.data.reverse
    rw [hhead] at h
    have h2 : cutset.contains c = false := h
    intro hmem
    have h3 : cutset.contains c = true := List.elem_iff.mpr hmem
    exact absurd (h3.symm.trans h2) (by decide)

/-! ### Claim about biography normalization -/

/-- C6 (amended): the biography stored by parseUsers is the raw decoded biography with
ALL trailing newline/space characters stripped (strings.TrimRight over the two-character
cutset): the stored value is a prefix of the raw value, every removed character is a
newline or a space, and the stored value does not end in a newline or a space. Leading
and interior whitespace is preserved as part of that prefix, but a run of several
trailing newline/space characters is removed entirely — not a fixed one-character
strip. -/
theorem c6_biography_trim (user : UserServer) :
    (parseUserRow user).About.data <+: user.About.data ∧
      (∀ c ∈ user.About.data.drop (parseUserRow user).About.data.length,
        c = Char.ofNat 10 ∨ c = Char.ofNat 32) ∧
      (∀ c, (parseUserRow user).About.data.getLast? = some c →
        ¬(c = Char.ofNat 10 ∨ c = Char.ofNat 32)) := by
  have h := trimRight_spec user.About unexpectedChars
  have habout : (parseUserRow user).About = trimRight user.About unexpectedChars := rfl
  rw [habout]
  refine ⟨h.1, ?_, ?_⟩
  · intro c hc
    have hm := h.2.1 c hc
    simpa [unexpectedChars] using hm
  · intro c hc hor
    refine h.2.2 c hc ?_
    simp only [unexpectedChars, List.mem_cons, List.mem_singleton]
    tauto

/-- C6 counterexample: a biography ending in two spaces. parseUsers strips both
characters (a trim-all over newline/space), while the claim predicts exactly one
trailing character stripped. -/
theorem c6_biography_trim_counterexample :
    (parseUserRow { ID := 1, Name := "A", Surname := "B", Age := 30,
                    About := "a  ", Gender := "m" }).About = "a" ∧
      stripOneTrailing "a  " = "a " ∧
      ("a" : String) ≠ "a " := by
  refine ⟨?_, ?_, ?_⟩ <;> decide

def rowC6 : UserServer :=
  { ID := 7, Name := "C", Surname := "D", Age := 25, About := "bio \n", Gender := "f" }

/-- Witness for C6 (amended) at a biography ending in a space-newline run. -/
theorem c6_biography_trim_witness :
    (parseUserRow rowC6).About.data <+: rowC6.About.data ∧
      (Char.ofNat 32 = Char.ofNat 10 ∨ Char.ofNat 32 = Char.ofNat 32) ∧
      ¬(Char.ofNat 111 = Char.ofNat 10 ∨ Char.ofNat 111 = Char.ofNat 32) :=
  ⟨(c6_biography_trim rowC6).1,
    (c6_biography_trim rowC6).2.1 (Char.ofNat 32) (by decide),
    (c6_biography_trim rowC6).2.2 (Char.ofNat 111) (by decide)⟩

/-! ### Claims about the handler's error behaviour -/

/-- C5 (amended): when the validated offset reaches or exceeds the post-filter length,
the pipeline returns the empty page and the server answers it as a 200 success with an
empty result array — an empty successful page, not a client-visible error. -/
theorem c5_oob_offset_empty_success (rows : List UserServer) (raw : RawQuery)
    (params : SearchRequestServer) (hok : checkQuery raw = Except.ok params)
    (hoob : params.Offset ≥ ((filterUsers (rows.map parseUserRow) params.Query).length : Int)) :
    processUsers (rows.map parseUserRow) params = some [] ∧
      searchServer true true (some rows) raw =
        some { status := 200, body := ResponseBody.usersJson [] } := by
  have hempty : processUsers (rows.map parseUserRow) params = some [] := by
    unfold processUsers
    rw [ if_pos hoob]
  refine ⟨hempty, ?_⟩
  simp [searchServer, hok, parseUsers, hempty]

/-- C5 counterexample: a one-record dataset and the validated request limit=1,
offset=1: the offset equals the filtered length, yet the server responds 200 with an
empty array rather than any error status. -/
theorem c5_oob_offset_empty_success_counterexample :
    searchServer true true (some [demoRow])
          { limit := "1", offset := "1", order_by := "0", query := "", order_field := "" } =
        some { status := 200, body := ResponseBody.usersJson [] } ∧
      (searchServer true true (some [demoRow])
          { limit := "1", offset := "1", order_by := "0", query := "",
            order_field := "" }).map HttpResult.status ≠ some 400 ∧
      (searchServer true true (some [demoRow])
          { limit := "1", offset := "1", order_by := "0", query := "",
            order_field := "" }).map HttpResult.status ≠ some 500 := by
  refine ⟨?_, ?_, ?_⟩ <;> decide

/-- Witness for C5 (amended) at the same concrete dataset and request. -/
theorem c5_oob_offset_empty_success_witness :
    checkQuery { limit := "1", offset := "1", order_by := "0", query := "",
                 order_field := "" } =
        Except.ok { Limit := 1, Offset := 1, Query := "", OrderField := "", OrderBy := 0 } ∧
      processUsers ([demoRow].map parseUserRow)
          { Limit := 1, Offset := 1, Query := "", OrderField := "", OrderBy := 0 } = some [] ∧
      searchServer true true (some [demoRow])
          { limit := "1", offset := "1", order_by := "0", query := "", order_field := "" } =
        some { status := 200, body := ResponseBody.usersJson [] } := by
  refine ⟨rfl, ?_⟩
  exact c5_oob_offset_empty_success [demoRow]
    { limit := "1", offset := "1", order_by := "0", query := "", order_field := "" }
    { Limit := 1, Offset := 1, Query := "", OrderField := "", OrderBy := 0 }
    rfl (by decide)

/-- C8 (amended): every 500 response has either an empty body (the dataset read
failed) or a JSON error body carrying the parse-failure message (the source document
failed to decode); the parse-failure 500 is the one case whose body is not empty. -/
theorem c8_500_body (authOk readOk : Bool) (decoded : Option (List UserServer))
    (raw : RawQuery) :
    (∀ res, searchServer authOk readOk decoded raw = some res → res.status = 500 →
        res.body = ResponseBody.empty ∨
          res.body = ResponseBody.errJson errParsingXMLFailedMsg) ∧
      (authOk = true → (∃ params, checkQuery raw = Except.ok params) → readOk = false →
        searchServer authOk readOk decoded raw =
          some { status := 500, body := ResponseBody.empty }) ∧
      (authOk = true → (∃ params, checkQuery raw = Except.ok params) → readOk = true →
        decoded = none →
        searchServer authOk readOk decoded raw =
          some { status := 500, body := ResponseBody.errJson errParsingXMLFailedMsg }) := by
  refine ⟨?_, ?_, ?_⟩
  · intro res hres h500
    unfold searchServer at hres
    split at hres
    · obtain rfl := Option.some.inj hres
      simp at h500
    · split at hres
      · obtain rfl := Option.some.inj hres
        simp at h500
      · split at hres
        · obtain rfl := Option.some.inj hres
          left
          rfl
        · split at hres
          · obtain rfl := Option.some.inj hres
            right
            rfl
          · split at hres
            · simp at hres
            · obtain rfl := Option.some.inj hres
              simp at h500
  · rintro ha ⟨params, hok⟩ hr
    subst ha
    subst hr
    simp [searchServer, hok]
  · rintro ha ⟨params, hok⟩ hr hd
    subst ha
    subst hr
    subst hd
    simp [searchServer, hok, parseUsers]

/-- C8 counterexample: auth passes, the dataset file reads, but the document fails to
decode: the response is a 500 whose body is the JSON parse-error message, not empty. -/
theorem c8_500_body_counterexample :
    searchServer true true none
          { limit := "1", offset := "0", order_by := "0", query := "", order_field := "" } =
        some { status := 500, body := ResponseBody.errJson errParsingXMLFailedMsg } ∧
      (searchServer true true none
          { limit := "1", offset := "0", order_by := "0", query := "",
            order_field := "" }).map HttpResult.body ≠ some ResponseBody.empty := by
  refine ⟨?_, ?_⟩ <;> decide

/-- Witness for C8 (amended), exercising the read-failure and parse-failure branches. -/
theorem c8_500_body_witness :
    searchServer true false (some [demoRow])
          { limit := "1", offset := "0", order_by := "0", query := "", order_field := "" } =
        some { status := 500, body := ResponseBody.empty } ∧
      searchServer true true none
          { limit := "1", offset := "0", order_by := "0", query := "", order_field := "" } =
        some { status := 500, body := ResponseBody.errJson errParsingXMLFailedMsg } :=
  ⟨(c8_500_body true false (some [demoRow])
        { limit := "1", offset := "0", order_by := "0", query := "", order_field := "" }).2.1
      rfl
      ⟨{ Limit := 1, Offset := 0, Query := "", OrderField := "", OrderBy := 0 }, rfl⟩
      rfl,
    (c8_500_body true true none
        { limit := "1", offset := "0", order_by := "0", query := "", order_field := "" }).2.2
      rfl
      ⟨{ Limit := 1, Offset := 0, Query := "", OrderField := "", OrderBy := 0 }, rfl⟩
      rfl rfl⟩

/-! ### Claim about validation priority -/

/-- C4 (amended): query validation fails with errors in this priority order: any
non-integer limit, offset, or order_by yields the malformed-params error before all
range checks; then an order field outside {"", "name", "age", "id"} yields the
bad-order-field error; then limit ≤ 0 yields the bad-limit error; then offset < 0
yields the bad-offset error; then a direction outside {-1, 0, 1} yields the
bad-order_by error. In particular, for limit ≤ 0 combined with an invalid order field
the error returned is the bad-order-field error. -/
theorem c4_validation_priority (raw : RawQuery) :
    ((atoi raw.limit = none ∨ atoi raw.offset = none ∨ atoi raw.order_by = none) →
        checkQuery raw = Except.error ServerErr.badQueryParams) ∧
      ∀ limit offset orderBy,
        atoi raw.limit = some limit → atoi raw.offset = some offset →
        atoi raw.order_by = some orderBy →
        ((¬ validOrderField raw.order_field →
            checkQuery raw = Except.error ServerErr.badOrderField) ∧
          (validOrderField raw.order_field → limit ≤ 0 →
            checkQuery raw = Except.error ServerErr.badLimit) ∧
          (validOrderField raw.order_field → 0 < limit → offset < 0 →
            checkQuery raw = Except.error ServerErr.badOffset) ∧
          (validOrderField raw.order_field → 0 < limit → 0 ≤ offset →
            ¬(orderBy = -1 ∨ orderBy = 0 ∨ orderBy = 1) →
            checkQuery raw = Except.error ServerErr.badOrderBy)) := by
  constructor
  · intro h
    rcases h with h | h | h
    · simp [checkQuery, parseQueryParams, h]
    · cases hL : atoi raw.limit with
      | none => simp [checkQuery, parseQueryParams, hL]
      | some l => simp [checkQuery, parseQueryParams, hL, h]
    · cases hL : atoi raw.limit with
      | none => simp [checkQuery, parseQueryParams, hL]
      | some l =>
        cases hO : atoi raw.offset with
        | none => simp [checkQuery, parseQueryParams, hL, hO]
        | some o => simp [checkQuery, parseQueryParams, hL, hO, h]
  · intro limit offset orderBy hL hO hB
    have hparse : parseQueryParams raw = some
        { Limit := limit, Offset := offset, Query := raw.query,
          OrderField := raw.order_field, OrderBy := orderBy } := by
      simp [parseQueryParams, hL, hO, hB]
    refine ⟨?_, ?_, ?_, ?_⟩
    · intro hf
      have hcond : raw.order_field ≠ "" ∧ raw.order_field ≠ nameFieldName ∧
          raw.order_field ≠ ageFieldName ∧ raw.order_field ≠ idFieldName := by
        unfold validOrderField at hf
        push_neg at hf
        exact hf
      simp [checkQuery, hparse, validateQueryParams, hcond.1, hcond.2.1, hcond.2.2.1,
        hcond.2.2.2]
    · intro hf hlim
      have hnot : ¬(raw.order_field ≠ "" ∧ raw.order_field ≠ nameFieldName ∧
          raw.order_field ≠ ageFieldName ∧ raw.order_field ≠ idFieldName) := by
        unfold validOrderField at hf
        tauto
      simp [checkQuery, hparse, validateQueryParams, hnot, hlim]
    · intro hf hlim hoff
      have hnot : ¬(raw.order_field ≠ "" ∧ raw.order_field ≠ nameFieldName ∧
          raw.order_field ≠ ageFieldName ∧ raw.order_field ≠ idFieldName) := by
        unfold validOrderField at hf
        tauto
      have hnl : ¬ limit ≤ 0 := by omega
      simp [checkQuery, hparse, validateQueryParams, hnot, hnl, hoff]
    · intro hf hlim hoff hob
      have hnot : ¬(raw.order_field ≠ "" ∧ raw.order_field ≠ nameFieldName ∧
          raw.order_field ≠ ageFieldName ∧ raw.order_field ≠ idFieldName) := by
        unfold validOrderField at hf
        tauto
      have hnl : ¬ limit ≤ 0 := by omega
      have hno : ¬ offset < 0 := by omega
      simp [checkQuery, hparse, validateQueryParams, hnot, hnl, hno, hob]

/-- C4 counterexample: limit "0" (an integer ≤ 0) together with the invalid order
field "gender" yields the bad-order-field error, not the bad-limit error predicted by
the claim. -/
theorem c4_validation_priority_counterexample :
    checkQuery { limit := "0", offset := "0", order_by := "0", query := "",
                 order_field := "gender" } = Except.error ServerErr.badOrderField ∧
      checkQuery { limit := "0", offset := "0", order_by := "0", query := "",
                   order_field := "gender" } ≠ Except.error ServerErr.badLimit := by
  constructor
  · rfl
  · intro h
    cases h

/-- Witness for C4 (amended): a non-integer limit gives the malformed-params error,
and an invalid order field beats an invalid limit. -/
theorem c4_validation_priority_witness :
    atoi "abc" = none ∧
      checkQuery { limit := "abc", offset := "0", order_by := "0", query := "",
                   order_field := "" } = Except.error ServerErr.badQueryParams ∧
      atoi "0" = some 0 ∧ ¬ validOrderField "gender" ∧ (0 : Int) ≤ 0 ∧
      checkQuery { limit := "0", offset := "0", order_by := "0", query := "",
                   order_field := "gender" } = Except.error ServerErr.badOrderField :=
  ⟨by decide,
    (c4_validation_priority
        { limit := "abc", offset := "0", order_by := "0", query := "",
          order_field := "" }).1 (Or.inl (by decide)),
    by decide, by decide, by decide,
    ((c4_validation_priority
          { limit := "0", offset := "0", order_by := "0", query := "",
            order_field := "gender" }).2 0 0 0 (by decide) (by decide) (by decide)).1
      (by decide)⟩
